import Mathlib

/-!
Verification development for the statcalc statistics engine.

The numeric page-level code (linear-programming solver, sample-size flow,
t-critical table) is embedded over `ℚ`: every operation it performs is
field arithmetic plus comparisons, so the rational embedding is exact.
The analytic library code (normal/t CDF approximations, regression,
seasonal decomposition) is embedded over `ℝ`, since it invokes `exp`,
`log` and `sqrt`; those claims are stated in exact real arithmetic.
-/

/-! ## Linear-programming graphical solver (src/app/linear-programming/page.tsx) -/

inductive ConstraintKind where
  | le
  | ge
  | eq
deriving DecidableEq, Repr

/-- A parsed constraint `a·x + b·y ▷ rhs` from the LP page. -/
structure LPConstraint where
  a : ℚ
  b : ℚ
  kind : ConstraintKind
  rhs : ℚ
deriving DecidableEq, Repr

/-- A line `a·x + b·y = c` as used in the candidate-vertex enumeration. -/
structure LPLine where
  a : ℚ
  b : ℚ
  c : ℚ
deriving DecidableEq, Repr

/-- Embeds `findIntersection` from the LP page: Cramer's rule, skipping
near-parallel pairs with `|det| < 1e-10`. -/
def findIntersection (a1 b1 c1 a2 b2 c2 : ℚ) : Option (ℚ × ℚ) :=
  let det := a1 * b2 - a2 * b1
  if |det| < 1 / 10000000000 then none
  else some ((c1 * b2 - c2 * b1) / det, (a1 * c2 - a2 * c1) / det)

/-- One constraint check from `isFeasible` (tolerance `1e-6`). -/
def satisfiesConstraint (x y : ℚ) (c : LPConstraint) : Bool :=
  let lhs := c.a * x + c.b * y
  match c.kind with
  | .le => lhs ≤ c.rhs + 1 / 1000000
  | .ge => c.rhs - 1 / 1000000 ≤ lhs
  | .eq => |lhs - c.rhs| ≤ 1 / 1000000

/-- Embeds `isFeasible` from the LP page: non-negativity within `1e-10`, every
constraint within `1e-6`. -/
def isFeasible (x y : ℚ) (cs : List LPConstraint) : Bool :=
  if x < -(1 / 10000000000) ∨ y < -(1 / 10000000000) then false
  else cs.all (satisfiesConstraint x y)

inductive OptimizationType where
  | maximize
  | minimize
deriving DecidableEq, Repr

/-- A feasible corner point record (`FeasiblePoint` in the page). -/
structure FeasiblePoint where
  x : ℚ
  y : ℚ
  objectiveValue : ℚ
  isOptimal : Bool
deriving DecidableEq, Repr

/-- The `Results` record built by `handleCalculate`. -/
structure LPResults where
  optimalX : ℚ
  optimalY : ℚ
  optimalValue : ℚ
  feasiblePoints : List FeasiblePoint
  objectiveCoeffX : ℚ
  objectiveCoeffY : ℚ
  optimizationType : OptimizationType
deriving DecidableEq, Repr

/-- The line list built in `handleCalculate`: the two non-negativity lines
`x = 0`, `y = 0` followed by one line per constraint. -/
def allLines (cs : List LPConstraint) : List LPLine :=
  ⟨1, 0, 0⟩ :: ⟨0, 1, 0⟩ :: cs.map (fun c => ⟨c.a, c.b, c.rhs⟩)

/-- The double loop over index pairs `i < j`: for each line, intersect it
with every later line, in loop order. -/
def candidatePoints : List LPLine → List (ℚ × ℚ)
  | [] => []
  | l :: rest =>
    rest.filterMap (fun m => findIntersection l.a l.b l.c m.a m.b m.c) ++
      candidatePoints rest

/-- The feasible-point list of `handleCalculate`: candidates passing
`isFeasible`, with coordinates clamped to 0 on output and the objective
evaluated at the unclamped point. -/
def feasibleList (cx cy : ℚ) (cs : List LPConstraint) : List FeasiblePoint :=
  (candidatePoints (allLines cs)).filterMap (fun p =>
    if isFeasible p.1 p.2 cs then
      some ⟨max 0 p.1, max 0 p.2, cx * p.1 + cy * p.2, false⟩
    else none)

/-- Duplicate removal within `1e-6` in both coordinates, in list order. -/
def dedupPoints (pts : List FeasiblePoint) : List FeasiblePoint :=
  pts.foldl (fun acc p =>
    if acc.any (fun u => |u.x - p.x| < 1 / 1000000 ∧ |u.y - p.y| < 1 / 1000000)
    then acc else acc ++ [p]) []

/-- Whether a point improves on the current best under the chosen
optimization direction (strict comparison, so ties keep the first). -/
def improves (otype : OptimizationType) (candidate best : ℚ) : Bool :=
  match otype with
  | .maximize => best < candidate
  | .minimize => candidate < best

/-- The linear scan of `handleCalculate` for the optimal index: `best`
and `bestVal` track `optimalIndex` and its objective value, `i` is the
index of the list head. -/
def optimalIndexLoop (otype : OptimizationType) (bestVal : ℚ) (best i : ℕ) :
    List FeasiblePoint → ℕ
  | [] => best
  | p :: rest =>
    if improves otype p.objectiveValue bestVal then
      optimalIndexLoop otype p.objectiveValue i (i + 1) rest
    else
      optimalIndexLoop otype bestVal best (i + 1) rest

/-- Index of the optimal point, starting from index 0 as in the page. -/
def optimalIndexOf (otype : OptimizationType) : List FeasiblePoint → ℕ
  | [] => 0
  | p :: rest => optimalIndexLoop otype p.objectiveValue 0 1 rest

/-- Set `isOptimal := true` on the entry at index `oi` (`i` counts from
the position of the list head). -/
def markOptimal (oi : ℕ) : ℕ → List FeasiblePoint → List FeasiblePoint
  | _, [] => []
  | i, p :: rest =>
    (if i = oi then { p with isOptimal := true } else p) ::
      markOptimal oi (i + 1) rest

/-- Stable descending insertion used to model the final
`sort((a, b) => b.objectiveValue - a.objectiveValue)`. -/
def insertDesc (p : FeasiblePoint) : List FeasiblePoint → List FeasiblePoint
  | [] => [p]
  | q :: rest =>
    if q.objectiveValue < p.objectiveValue then p :: q :: rest
    else q :: insertDesc p rest

/-- Stable sort of the displayed points by descending objective value. -/
def sortByObjectiveDesc (l : List FeasiblePoint) : List FeasiblePoint :=
  l.foldr insertDesc []

/-- The computational core of `handleCalculate` after input parsing:
enumerate candidate vertices, filter by feasibility, report infeasibility
when none survives, deduplicate, mark the optimum, and build `Results`. -/
def lpSolve (otype : OptimizationType) (cx cy : ℚ) (cs : List LPConstraint) :
    Except String LPResults :=
  let fps := feasibleList cx cy cs
  if fps.isEmpty then
    .error "No feasible solution exists for the given constraints"
  else
    let uniq := dedupPoints fps
    let oi := optimalIndexOf otype uniq
    let marked := markOptimal oi 0 uniq
    let opt := marked.getD oi ⟨0, 0, 0, false⟩
    .ok { optimalX := opt.x
          optimalY := opt.y
          optimalValue := opt.objectiveValue
          feasiblePoints := sortByObjectiveDesc marked
          objectiveCoeffX := cx
          objectiveCoeffY := cy
          optimizationType := otype }

/-! ## Sample-size calculator (src/lib/statistics + sample-size page) -/

/-- The `Z_SCORES` lookup table for common confidence levels. -/
def Z_SCORES (conf : ℚ) : Option ℚ :=
  if conf = 90 then some 1.645
  else if conf = 95 then some 1.96
  else if conf = 99 then some 2.576
  else if conf = 85 then some 1.44
  else if conf = 80 then some 1.28
  else none

/-- Embeds `sampleSizeProportion`: n0 = ⌈z²·p(1-p)/E²⌉. -/
def sampleSizeProportion (z p e : ℚ) : ℤ :=
  ⌈z * z * p * (1 - p) / (e * e)⌉

/-- Embeds `sampleSizeMean`: n0 = ⌈z²·σ²/E²⌉. -/
def sampleSizeMean (z sigma e : ℚ) : ℤ :=
  ⌈z * z * sigma * sigma / (e * e)⌉

/-- Embeds `finitePopulationCorrection`: n = ⌈n0/(1+(n0-1)/N)⌉. -/
def finitePopulationCorrection (n0 N : ℚ) : ℤ :=
  ⌈n0 / (1 + (n0 - 1) / N)⌉

inductive ParameterType where
  | proportion
  | mean
deriving DecidableEq, Repr

/-- The `Results` record of the sample-size page. -/
structure SampleSizeResults where
  n0 : ℤ
  nAdjusted : Option ℤ
  z : ℚ
  populationSize : Option ℚ
  confidenceLevel : ℚ
  marginOfError : ℚ
  parameterType : ParameterType
deriving DecidableEq, Repr

/-- The uncorrected sample size chosen by parameter type in
`handleCalculate` of the sample-size page. -/
def sampleSizeN0 (ptype : ParameterType) (z p s e : ℚ) : ℤ :=
  match ptype with
  | .proportion => sampleSizeProportion z p e
  | .mean => sampleSizeMean z s e

/-- The computational core of the sample-size page's `handleCalculate`
after input parsing: z lookup, margin/parameter validation, n0, then the
optional finite-population step (`N` is `none` when the field is empty). -/
def sampleSizeCalculate (ptype : ParameterType) (conf e p s : ℚ)
    (N : Option ℚ) : Except String SampleSizeResults :=
  match Z_SCORES conf with
  | none => .error "Invalid confidence level"
  | some z =>
    if e ≤ 0 ∨ 1 ≤ e then .error "Margin of error must be between 0 and 1"
    else
      let finish : ℤ → Except String SampleSizeResults := fun n0 =>
        match N with
        | some Nv =>
          if 0 < Nv then
            if (Nv : ℚ) < (n0 : ℚ) then
              .error "Required sample size exceeds population size"
            else
              .ok ⟨n0, some (finitePopulationCorrection (n0 : ℚ) Nv), z,
                some Nv, conf, e, ptype⟩
          else .ok ⟨n0, none, z, some Nv, conf, e, ptype⟩
        | none => .ok ⟨n0, none, z, none, conf, e, ptype⟩
      match ptype with
      | .proportion =>
        if p < 0 ∨ 1 < p then .error "Proportion must be between 0 and 1"
        else finish (sampleSizeProportion z p e)
      | .mean =>
        if s ≤ 0 then .error "Standard deviation must be a positive number"
        else finish (sampleSizeMean z s e)

/-! ## t-critical table lookup (`getTCritical` in src/lib/statistics) -/

/-- One row of the `tTable` record: values for confidence levels
90, 95 and 99, `none` for any other level. -/
def tRow (v90 v95 v99 conf : ℚ) : Option ℚ :=
  if conf = 90 then some v90
  else if conf = 95 then some v95
  else if conf = 99 then some v99
  else none

/-- The `tTable` lookup `tTable[d]?.[conf]`. -/
def tTableLookup (d : ℕ) (conf : ℚ) : Option ℚ :=
  if d = 1 then tRow 6.314 12.706 63.657 conf
  else if d = 2 then tRow 2.92 4.303 9.925 conf
  else if d = 3 then tRow 2.353 3.182 5.841 conf
  else if d = 4 then tRow 2.132 2.776 4.604 conf
  else if d = 5 then tRow 2.015 2.571 4.032 conf
  else if d = 6 then tRow 1.943 2.447 3.707 conf
  else if d = 7 then tRow 1.895 2.365 3.499 conf
  else if d = 8 then tRow 1.86 2.306 3.355 conf
  else if d = 9 then tRow 1.833 2.262 3.25 conf
  else if d = 10 then tRow 1.812 2.228 3.169 conf
  else if d = 11 then tRow 1.796 2.201 3.106 conf
  else if d = 12 then tRow 1.782 2.179 3.055 conf
  else if d = 13 then tRow 1.771 2.16 3.012 conf
  else if d = 14 then tRow 1.761 2.145 2.977 conf
  else if d = 15 then tRow 1.753 2.131 2.947 conf
  else if d = 16 then tRow 1.746 2.12 2.921 conf
  else if d = 17 then tRow 1.74 2.11 2.898 conf
  else if d = 18 then tRow 1.734 2.101 2.878 conf
  else if d = 19 then tRow 1.729 2.093 2.861 conf
  else if d = 20 then tRow 1.725 2.086 2.845 conf
  else if d = 25 then tRow 1.708 2.06 2.787 conf
  else if d = 30 then tRow 1.697 2.042 2.75 conf
  else if d = 40 then tRow 1.684 2.021 2.704 conf
  else if d = 50 then tRow 1.676 2.009 2.678 conf
  else if d = 60 then tRow 1.671 2.0 2.66 conf
  else if d = 80 then tRow 1.664 1.99 2.639 conf
  else if d = 100 then tRow 1.66 1.984 2.626 conf
  else if d = 120 then tRow 1.658 1.98 2.617 conf
  else none

/-- The sorted df breakpoints of the table (`Object.keys` sorted
ascending). -/
def tBreakpoints : List ℕ :=
  [1, 2, 3, 4, 5, 6, 7, 8, 9, 10, 11, 12, 13, 14, 15, 16, 17, 18, 19, 20,
   25, 30, 40, 50, 60, 80, 100, 120]

/-- The `for (const d of dfs) { if (d <= df) closestDf = d; else break }`
loop of `getTCritical`. -/
def closestDfLoop (df : ℚ) : ℕ → List ℕ → ℕ
  | acc, [] => acc
  | acc, d :: rest => if (d : ℚ) ≤ df then closestDfLoop df d rest else acc

/-- Embeds `getTCritical` from src/lib/statistics: `df ≥ 120` delegates to the
z table; otherwise a table lookup at the loop's closest breakpoint with
fallback `Z_SCORES[conf] || 1.96`. -/
def getTCritical (df conf : ℚ) : ℚ :=
  if 120 ≤ df then (Z_SCORES conf).getD 1.96
  else
    (tTableLookup (closestDfLoop df 1 tBreakpoints) conf).getD
      ((Z_SCORES conf).getD 1.96)

/-- The lookup behaviour described by claim C7: the returned value is the
table entry at the largest breakpoint that is at most `df`. -/
def tCriticalClaimedLookup (df conf r : ℚ) : Prop :=
  ∃ b ∈ tBreakpoints, (b : ℚ) ≤ df ∧
    (∀ d ∈ tBreakpoints, (d : ℚ) ≤ df → d ≤ b) ∧
    tTableLookup b conf = some r

/-! ## Distribution approximations over ℝ (src/lib/statistics) -/

/-- Embeds `normalCDF`: the Abramowitz–Stegun erf-based approximation, modelled
in exact real arithmetic. -/
noncomputable def normalCDF (z : ℝ) : ℝ :=
  let a1 : ℝ := 0.254829592
  let a2 : ℝ := -0.284496736
  let a3 : ℝ := 1.421413741
  let a4 : ℝ := -1.453152027
  let a5 : ℝ := 1.061405429
  let p : ℝ := 0.3275911
  let sign : ℝ := if z < 0 then -1 else 1
  let z' := |z| / Real.sqrt 2
  let t := 1.0 / (1.0 + p * z')
  let y := 1.0 -
    ((((a5 * t + a4) * t + a3) * t + a2) * t + a1) * t * Real.exp (-(z' * z'))
  0.5 * (1.0 + sign * y)

/-- Embeds `gammaLn`: the Lanczos log-gamma approximation, with the
`for (j = 0; j < 6; j++) ser += cof[j] / ++y` loop written out. -/
noncomputable def gammaLn (x : ℝ) : ℝ :=
  let tmp := x + 5.5 - (x + 0.5) * Real.log (x + 5.5)
  let ser :=
    (1.000000000190015
      + 76.18009172947146 / (x + 1)
      + (-86.50532032941677) / (x + 2)
      + 24.01409824083091 / (x + 3)
      + (-1.231739572450155) / (x + 4)
      + 0.001208650973866179 / (x + 5)
      + (-0.000005395239384953) / (x + 6))
  let result := -tmp + Real.log (2.5066282746310005 * ser / x)
  result

/-- The `if (Math.abs(v) < epsilon) v = epsilon` floor of the Lentz
iteration, with `epsilon = 1e-10`. -/
noncomputable def epsFloor (v : ℝ) : ℝ :=
  if |v| < 1e-10 then 1e-10 else v

/-- One-per-call unrolling of the `for (m = 1; m <= 100; m++)` Lentz loop
of `betaCF`; `fuel` counts the remaining iterations, `m` the current one,
and `c`, `d`, `h` the loop state. -/
noncomputable def betaCFIter (a b x : ℝ) : ℕ → ℕ → ℝ → ℝ → ℝ → ℝ
  | 0, _, _, _, h => h
  | fuel + 1, m, c, d, h =>
    let qab := a + b
    let qap := a + 1
    let qam := a - 1
    let m2 : ℕ := 2 * m
    let aa1 := ((m : ℝ) * (b - (m : ℝ)) * x) / ((qam + (m2 : ℝ)) * (a + (m2 : ℝ)))
    let d1 := epsFloor (1 + aa1 * d)
    let c1 := epsFloor (1 + aa1 / c)
    let d2 := 1 / d1
    let h1 := h * d2 * c1
    let aa2 := (-(a + (m : ℝ)) * (qab + (m : ℝ)) * x) /
      ((a + (m2 : ℝ)) * (qap + (m2 : ℝ)))
    let d3 := epsFloor (1 + aa2 * d2)
    let c2 := epsFloor (1 + aa2 / c1)
    let d4 := 1 / d3
    let del := d4 * c2
    let h2 := h1 * del
    if |del - 1| < 1e-10 then h2 else betaCFIter a b x fuel (m + 1) c2 d4 h2

/-- Embeds `betaCF`: the modified Lentz continued fraction with iteration cap 100. -/
noncomputable def betaCF (a b x : ℝ) : ℝ :=
  let qab := a + b
  let qap := a + 1
  let d0 := 1 / epsFloor (1 - qab * x / qap)
  betaCFIter a b x 100 1 1 d0 d0

/-- Embeds `incompleteBeta`: the regularized incomplete beta approximation with the
standard symmetry rule and the `x = 0` / `x = 1` shortcuts. -/
noncomputable def incompleteBeta (a b x : ℝ) : ℝ :=
  if x = 0 then 0
  else if x = 1 then 1
  else
    let bt := Real.exp (gammaLn (a + b) - gammaLn a - gammaLn b +
      a * Real.log x + b * Real.log (1 - x))
    if x < (a + 1) / (a + b + 2) then bt * betaCF a b x / a
    else 1 - bt * betaCF b a (1 - x) / b

/-- Embeds `tCDF`: normal approximation for df > 100, incomplete-beta formula
otherwise.  Note the code has no sign branch on `t`. -/
noncomputable def tCDF (t df : ℝ) : ℝ :=
  if 100 < df then normalCDF t
  else 1 - 0.5 * incompleteBeta (df / 2) 0.5 (df / (df + t * t))

/-! ## Linear regression over ℝ (src/lib/statistics) -/

/-- Embeds `calculateMean` in exact real arithmetic:
`data.reduce((sum, val) => sum + val, 0) / data.length`. -/
noncomputable def calculateMean (data : List ℝ) : ℝ :=
  data.foldl (fun sum val => sum + val) 0 / (data.length : ℝ)

/-- A centered sum of squares `l.reduce((sum, v) => sum + (v - m)², 0)`
as formed for `ssXX` and `ssYY` in `linearRegression`. -/
noncomputable def sumSqDev (l : List ℝ) (m : ℝ) : ℝ :=
  l.foldl (fun sum v => sum + (v - m) ^ 2) 0

/-- The cross sum `Σ (xᵢ - meanX)(yᵢ - meanY)` (`ssXY`), with the
index-paired access `y[i]` modelled by `zipWith`. -/
noncomputable def sumCrossDev (x y : List ℝ) (mx my : ℝ) : ℝ :=
  (List.zipWith (fun xi yi => (xi - mx) * (yi - my)) x y).foldl
    (fun sum v => sum + v) 0

/-- The `RegressionResult` record. -/
structure RegressionResult where
  slope : ℝ
  intercept : ℝ
  rSquared : ℝ
  standardErrorSlope : ℝ
  standardErrorIntercept : ℝ
  predictions : List ℝ
  residuals : List ℝ

/-- Embeds `linearRegression` from src/lib/statistics, in exact real
arithmetic. -/
noncomputable def linearRegression (x y : List ℝ) : RegressionResult :=
  let n := x.length
  let meanX := calculateMean x
  let meanY := calculateMean y
  let ssXX := sumSqDev x meanX
  let ssYY := sumSqDev y meanY
  let ssXY := sumCrossDev x y meanX meanY
  let slope := ssXY / ssXX
  let intercept := meanY - slope * meanX
  let predictions := x.map (fun xi => intercept + slope * xi)
  let residuals := List.zipWith (fun yi pi => yi - pi) y predictions
  let ssResidual := residuals.foldl (fun sum r => sum + r * r) 0
  let rSquared := 1 - ssResidual / ssYY
  let mse := ssResidual / ((n : ℝ) - 2)
  { slope := slope
    intercept := intercept
    rSquared := rSquared
    standardErrorSlope := Real.sqrt (mse / ssXX)
    standardErrorIntercept := Real.sqrt (mse * (1 / (n : ℝ) + meanX ^ 2 / ssXX))
    predictions := predictions
    residuals := residuals }

/-! ## Seasonal decomposition over ℝ (`calculateSeasonalIndices`) -/

/-- Embeds `halfPeriod = Math.floor(periodsPerSeason / 2)`. -/
def halfPeriod (P : ℕ) : ℕ := P / 2

/-- One term of the centered-moving-average window: for even P the two
boundary positions `i ± halfPeriod` contribute `data[j]/2`, every other
position contributes `data[j]`. -/
noncomputable def windowTerm (data : List ℝ) (P i j : ℕ) : ℝ :=
  if P % 2 = 0 ∧ (j = i - halfPeriod P ∨ j = i + halfPeriod P)
  then data.getD j 0 / 2
  else data.getD j 0

/-- The centered moving average at index `i`: `none` at the boundary
(`i < halfPeriod` or `i ≥ n - halfPeriod`), otherwise the window sum over
`j = i - halfPeriod, …, i + halfPeriod` divided by P. -/
noncomputable def movingAverageAt (data : List ℝ) (P i : ℕ) : Option ℝ :=
  if i < halfPeriod P ∨ data.length - halfPeriod P ≤ i then none
  else
    some (((List.range (2 * halfPeriod P + 1)).map
      (fun k => windowTerm data P i (i - halfPeriod P + k))).sum / (P : ℝ))

/-- The ratio `data[i] / movingAverage[i]` where the average is defined. -/
noncomputable def ratioAt (data : List ℝ) (P i : ℕ) : Option ℝ :=
  (movingAverageAt data P i).map (fun ma => data.getD i 0 / ma)

/-- The `movingAverages` output sequence (one entry per input index). -/
noncomputable def movingAverages (data : List ℝ) (P : ℕ) : List (Option ℝ) :=
  (List.range data.length).map (movingAverageAt data P)

/-- The `ratios` output sequence (one entry per input index). -/
noncomputable def ratios (data : List ℝ) (P : ℕ) : List (Option ℝ) :=
  (List.range data.length).map (ratioAt data P)

/-- The non-null ratios accumulated into season slot `s` by the
`ratios.forEach` loop (`seasonIndex = i % periodsPerSeason`). -/
noncomputable def ratiosAtSeason (data : List ℝ) (P s : ℕ) : List ℝ :=
  (List.range data.length).filterMap
    (fun i => if i % P = s then ratioAt data P i else none)

/-- Embeds `rawIndices[s] = seasonalCounts[s] > 0 ? sum/count : 1`. -/
noncomputable def rawIndexAt (data : List ℝ) (P s : ℕ) : ℝ :=
  if 0 < (ratiosAtSeason data P s).length then
    (ratiosAtSeason data P s).sum / ((ratiosAtSeason data P s).length : ℝ)
  else 1

/-- The raw per-season indices. -/
noncomputable def rawIndices (data : List ℝ) (P : ℕ) : List ℝ :=
  (List.range P).map (rawIndexAt data P)

/-- Embeds `avgIndex = rawIndices.reduce((a, b) => a + b, 0) / periodsPerSeason`. -/
noncomputable def avgIndex (data : List ℝ) (P : ℕ) : ℝ :=
  (rawIndices data P).sum / (P : ℝ)

/-- The normalized seasonal indices `rawIndices.map(idx => idx/avgIndex)`. -/
noncomputable def seasonalIndices (data : List ℝ) (P : ℕ) : List ℝ :=
  (rawIndices data P).map (fun idx => idx / avgIndex data P)

/-- Embeds `deseasonalized = data.map((val, i) => val / indices[i % P])`. -/
noncomputable def deseasonalizedData (data : List ℝ) (P : ℕ) : List ℝ :=
  data.mapIdx (fun i val => val / (seasonalIndices data P).getD (i % P) 0)

/-- The result record of `calculateSeasonalIndices`. -/
structure SeasonalResult where
  indices : List ℝ
  deseasonalized : List ℝ
  movingAverages : List (Option ℝ)
  ratios : List (Option ℝ)

/-- Embeds `calculateSeasonalIndices`, assembled from the parts above. -/
noncomputable def calculateSeasonalIndices (data : List ℝ) (P : ℕ) :
    SeasonalResult :=
  { indices := seasonalIndices data P
    deseasonalized := deseasonalizedData data P
    movingAverages := movingAverages data P
    ratios := ratios data P }

/-! ## JS-number model for the descriptive primitives (C10)

`calculateMean` and `calculateStdDev` perform no validation, so on the
empty sequence and on singletons they reach `0/0` and `sqrt` of it.  To
state what the JS code returns there we model a JS double as a finite
real or one of the IEEE non-finite values.  On every operation reached by
the claimed inputs the JS double arithmetic is exact (sums with 0,
division by 1, `x - x`, `0²`, `0/0`), so no rounding model is needed.
Division of a finite value by zero ignores the sign of the IEEE zero
(we treat the denominator as +0), which is irrelevant on these paths
because every division by zero here has a zero numerator. -/

inductive JSNum where
  | val (x : ℝ)
  | nan
  | posInf
  | negInf

/-- JS `+` on doubles (exact on finite results). -/
noncomputable def jsAdd : JSNum → JSNum → JSNum
  | .nan, _ => .nan
  | _, .nan => .nan
  | .posInf, .negInf => .nan
  | .negInf, .posInf => .nan
  | .posInf, _ => .posInf
  | _, .posInf => .posInf
  | .negInf, _ => .negInf
  | _, .negInf => .negInf
  | .val a, .val b => .val (a + b)

/-- JS `-` on doubles (exact on finite results). -/
noncomputable def jsSub : JSNum → JSNum → JSNum
  | .nan, _ => .nan
  | _, .nan => .nan
  | .posInf, .posInf => .nan
  | .negInf, .negInf => .nan
  | .posInf, _ => .posInf
  | .negInf, _ => .negInf
  | .val _, .posInf => .negInf
  | .val _, .negInf => .posInf
  | .val a, .val b => .val (a - b)

/-- JS `*` on doubles (exact on finite results). -/
noncomputable def jsMul : JSNum → JSNum → JSNum
  | .nan, _ => .nan
  | _, .nan => .nan
  | .val a, .val b => .val (a * b)
  | .val a, .posInf => if a = 0 then .nan else if 0 < a then .posInf else .negInf
  | .posInf, .val a => if a = 0 then .nan else if 0 < a then .posInf else .negInf
  | .val a, .negInf => if a = 0 then .nan else if 0 < a then .negInf else .posInf
  | .negInf, .val a => if a = 0 then .nan else if 0 < a then .negInf else .posInf
  | .posInf, .posInf => .posInf
  | .negInf, .negInf => .posInf
  | .posInf, .negInf => .negInf
  | .negInf, .posInf => .negInf

/-- JS `/` on doubles: `0/0` is NaN, nonzero/0 is a signed infinity. -/
noncomputable def jsDiv : JSNum → JSNum → JSNum
  | .nan, _ => .nan
  | _, .nan => .nan
  | .val a, .val b =>
    if b = 0 then (if a = 0 then .nan else if 0 < a then .posInf else .negInf)
    else .val (a / b)
  | .val _, .posInf => .val 0
  | .val _, .negInf => .val 0
  | .posInf, .val b => if b < 0 then .negInf else .posInf
  | .negInf, .val b => if b < 0 then .posInf else .negInf
  | .posInf, _ => .nan
  | .negInf, _ => .nan

/-- JS `Math.sqrt`: NaN for NaN and for negative arguments. -/
noncomputable def jsSqrt : JSNum → JSNum
  | .nan => .nan
  | .posInf => .posInf
  | .negInf => .nan
  | .val a => if a < 0 then .nan else .val (Real.sqrt a)

/-- Embeds `Math.pow(v, 2)` as used by `calculateStdDev`. -/
noncomputable def jsPow2 (v : JSNum) : JSNum := jsMul v v

namespace JS

/-- Embeds `calculateMean` over the JS-number model:
`data.reduce((sum, val) => sum + val, 0) / data.length`. -/
noncomputable def calculateMean (data : List JSNum) : JSNum :=
  jsDiv (data.foldl jsAdd (.val 0)) (.val (data.length : ℝ))

/-- Embeds `calculateStdDev` over the JS-number model, with the Bessel
denominator `length - 1` in sample mode. -/
noncomputable def calculateStdDev (data : List JSNum) (isSample : Bool) : JSNum :=
  let mean := calculateMean data
  let squaredDiffs := data.map (fun v => jsPow2 (jsSub v mean))
  let variance := jsDiv (squaredDiffs.foldl jsAdd (.val 0))
    (.val (if isSample then (data.length : ℝ) - 1 else (data.length : ℝ)))
  jsSqrt variance

end JS

/-! ## Theorems for the LP claims -/

/-- C2: for maximize 3x+2y subject to x+y ≤ 4, 2x+y ≤ 6, x,y ≥ 0, the solver
returns the optimal vertex (2, 2) with objective value 10 and marks that
vertex optimal among the enumerated feasible corner points. -/
theorem lpSolve_example :
    lpSolve .maximize 3 2 [⟨1, 1, .le, 4⟩, ⟨2, 1, .le, 6⟩] =
      .ok { optimalX := 2
            optimalY := 2
            optimalValue := 10
            feasiblePoints := [⟨2, 2, 10, true⟩, ⟨3, 0, 9, false⟩,
                               ⟨0, 4, 8, false⟩, ⟨0, 0, 0, false⟩]
            objectiveCoeffX := 3
            objectiveCoeffY := 2
            optimizationType := .maximize } := by
  norm_num [lpSolve, feasibleList, candidatePoints, allLines, findIntersection,
    isFeasible, satisfiesConstraint, dedupPoints, optimalIndexOf,
    optimalIndexLoop, improves, markOptimal, sortByObjectiveDesc, insertDesc,
    abs_le, abs_lt, List.filterMap_cons, List.isEmpty, List.getD]

/-- C6: whenever no candidate intersection point passes the feasibility
filter, the solver reports the infeasibility reason string and produces no
result record. -/
theorem lpSolve_infeasible (otype : OptimizationType) (cx cy : ℚ)
    (cs : List LPConstraint) (h : feasibleList cx cy cs = []) :
    lpSolve otype cx cy cs =
      .error "No feasible solution exists for the given constraints" := by
  unfold lpSolve
  rw [h]
  rfl

/-- Witness for C6: two contradictory equality constraints
x + y = 1 and x + y = 2 leave no feasible vertex, and the solver reports
the infeasibility failure. -/
theorem lpSolve_infeasible_witness :
    feasibleList 1 1 [⟨1, 1, .eq, 1⟩, ⟨1, 1, .eq, 2⟩] = [] ∧
      lpSolve .maximize 1 1 [⟨1, 1, .eq, 1⟩, ⟨1, 1, .eq, 2⟩] =
        .error "No feasible solution exists for the given constraints" := by
  have h : feasibleList 1 1 [⟨1, 1, .eq, 1⟩, ⟨1, 1, .eq, 2⟩] = [] := by
    norm_num [feasibleList, candidatePoints, allLines, findIntersection,
      isFeasible, satisfiesConstraint, abs_le, abs_lt, List.filterMap_cons]
  exact ⟨h, lpSolve_infeasible .maximize 1 1 _ h⟩

/-! ## Theorems for the sample-size claims -/

/-- C8: when a finite population size N > 0 is supplied and the
uncorrected sample size n0 exceeds N, the calculation reports the
infeasibility failure and produces no result record, so the
finite-population correction is never applied. -/
theorem sampleSize_infeasible (ptype : ParameterType) (conf e p s Nv z : ℚ)
    (hz : Z_SCORES conf = some z)
    (he0 : 0 < e) (he1 : e < 1)
    (hp : ptype = .proportion → 0 ≤ p ∧ p ≤ 1)
    (hs : ptype = .mean → 0 < s)
    (hN : 0 < Nv)
    (hn0 : Nv < (sampleSizeN0 ptype z p s e : ℚ)) :
    sampleSizeCalculate ptype conf e p s (some Nv) =
      .error "Required sample size exceeds population size" := by
  have he : ¬(e ≤ 0 ∨ 1 ≤ e) := by
    rw [not_or]
    exact ⟨not_le.mpr he0, not_le.mpr he1⟩
  unfold sampleSizeCalculate
  rw [hz]
  cases ptype with
  | proportion =>
    obtain ⟨hp0, hp1⟩ := hp rfl
    have hpv : ¬(p < 0 ∨ 1 < p) := by
      rw [not_or]
      exact ⟨not_lt.mpr hp0, not_lt.mpr hp1⟩
    simp only [sampleSizeN0] at hn0
    simp only [if_neg he, if_neg hpv, if_pos hN, if_pos hn0]
  | mean =>
    have hsv : ¬ s ≤ 0 := not_le.mpr (hs rfl)
    simp only [sampleSizeN0] at hn0
    simp only [if_neg he, if_neg hsv, if_pos hN, if_pos hn0]

/-- Witness for C8: at 95% confidence, E = 0.05, p = 0.5 the uncorrected
size is 385, which exceeds N = 100, and the calculator reports the
infeasibility failure. -/
theorem sampleSize_infeasible_witness :
    Z_SCORES 95 = some 1.96 ∧ (0 : ℚ) < 1/20 ∧ (1/20 : ℚ) < 1 ∧
      (0 : ℚ) ≤ 1/2 ∧ (1/2 : ℚ) ≤ 1 ∧ (0 : ℚ) < 100 ∧
      (100 : ℚ) < (sampleSizeN0 .proportion 1.96 (1/2) 0 (1/20) : ℚ) ∧
      sampleSizeCalculate .proportion 95 (1/20) (1/2) 0 (some 100) =
        .error "Required sample size exceeds population size" := by
  have hz : Z_SCORES 95 = some 1.96 := by norm_num [Z_SCORES]
  have hceil : (⌈(1.96 : ℚ) * 1.96 * (1/2) * (1 - 1/2) / (1/20 * (1/20))⌉ : ℤ) = 385 := by
    rw [show (1.96 : ℚ) * 1.96 * (1/2) * (1 - 1/2) / (1/20 * (1/20)) = 9604/25 by norm_num]
    rw [Int.ceil_eq_iff]
    norm_num
  have hn0 : (100 : ℚ) < (sampleSizeN0 .proportion 1.96 (1/2) 0 (1/20) : ℚ) := by
    simp only [sampleSizeN0, sampleSizeProportion]
    rw [hceil]
    norm_num
  refine ⟨hz, by norm_num, by norm_num, by norm_num, by norm_num, by norm_num,
    hn0, ?_⟩
  exact sampleSize_infeasible .proportion 95 (1/20) (1/2) 0 100 1.96 hz
    (by norm_num) (by norm_num) (fun _ => by norm_num) (fun h => by cases h)
    (by norm_num) hn0

/-! ## Theorems for the t-critical claim -/

/-- The break-early loop on a sorted breakpoint list returns a value that
is the start or a member, at least the start, at most `df`, and an upper
bound for every listed breakpoint that is at most `df`. -/
theorem closestDfLoop_spec (df : ℚ) (l : List ℕ) :
    ∀ acc : ℕ, l.Pairwise (· ≤ ·) → (acc : ℚ) ≤ df → (∀ e ∈ l, acc ≤ e) →
      (closestDfLoop df acc l = acc ∨ closestDfLoop df acc l ∈ l) ∧
        acc ≤ closestDfLoop df acc l ∧
        ((closestDfLoop df acc l : ℕ) : ℚ) ≤ df ∧
        ∀ d ∈ l, (d : ℚ) ≤ df → d ≤ closestDfLoop df acc l := by
  induction l with
  | nil =>
    intro acc _ hacc _
    exact ⟨Or.inl rfl, le_refl _, hacc, by simp⟩
  | cons d rest ih =>
    intro acc hpair hacc hlb
    rw [List.pairwise_cons] at hpair
    obtain ⟨hd_rest, hrest⟩ := hpair
    by_cases hd : (d : ℚ) ≤ df
    · have step : closestDfLoop df acc (d :: rest) = closestDfLoop df d rest := by
        simp [closestDfLoop, hd]
      obtain ⟨hmem, hmono, hle, hmax⟩ := ih d hrest hd hd_rest
      rw [step]
      refine ⟨?_, ?_, hle, ?_⟩
      · rcases hmem with h | h
        · exact Or.inr (by rw [h]; exact List.mem_cons_self d rest)
        · exact Or.inr (List.mem_cons_of_mem d h)
      · exact le_trans (hlb d (List.mem_cons_self d rest)) hmono
      · intro e he hedf
        rcases List.mem_cons.mp he with h | h
        · rw [h]; exact hmono
        · exact hmax e h hedf
    · have step : closestDfLoop df acc (d :: rest) = acc := by
        simp [closestDfLoop, hd]
      rw [step]
      refine ⟨Or.inl rfl, le_refl _, hacc, ?_⟩
      intro e he hedf
      rcases List.mem_cons.mp he with h | h
      · exact absurd (h ▸ hedf) hd
      · exact absurd (le_trans (Nat.cast_le.mpr (hd_rest e h)) hedf) hd

/-- Rows of the t table contain only the confidence levels 90, 95 and 99;
any other level misses and falls through to the z fallback. -/
theorem tTableLookup_absent (d : ℕ) (conf : ℚ)
    (h90 : conf ≠ 90) (h95 : conf ≠ 95) (h99 : conf ≠ 99) :
    tTableLookup d conf = none := by
  have hrow : ∀ a b c : ℚ, tRow a b c conf = none := by
    intro a b c
    unfold tRow
    rw [if_neg h90, if_neg h95, if_neg h99]
  unfold tTableLookup
  simp only [hrow, ite_self]

/-- C7 counterexample: at df = 1/2 (a positive df below every breakpoint)
`getTCritical` returns the breakpoint-1 entry 12.706, yet no tabulated
breakpoint is ≤ df, so the claimed largest-breakpoint lookup description
is false there. -/
theorem getTCritical_claim_cex :
    getTCritical (1/2) 95 = 12.706 ∧
      ¬ tCriticalClaimedLookup (1/2) 95 (getTCritical (1/2) 95) := by
  have hloop : closestDfLoop (1/2) 1 tBreakpoints = 1 := by
    rw [tBreakpoints, closestDfLoop, if_neg (by norm_num : ¬ ((1 : ℕ) : ℚ) ≤ 1/2)]
  have hval : getTCritical (1/2) 95 = 12.706 := by
    unfold getTCritical
    rw [if_neg (by norm_num), hloop]
    norm_num [tTableLookup, tRow]
  refine ⟨hval, ?_⟩
  rintro ⟨b, hb, hble, -, -⟩
  have h1b : 1 ≤ b := by
    have hall : ∀ e ∈ tBreakpoints, 1 ≤ e := by decide
    exact hall b hb
  have h1b' : (1 : ℚ) ≤ (b : ℚ) := by exact_mod_cast h1b
  linarith

/-- C7 amended: for df ≥ 120 the z critical value is returned; for
1 ≤ df < 120 the entry at the largest tabulated breakpoint ≤ df (with z
fallback for absent levels); for 0 < df < 1, where no breakpoint is ≤ df,
the breakpoint-1 row is used; and any confidence level other than
90/95/99 always receives the z fallback. -/
theorem getTCritical_spec (df conf : ℚ) (hdf : 0 < df) :
    (120 ≤ df → getTCritical df conf = (Z_SCORES conf).getD 1.96) ∧
    (1 ≤ df → df < 120 →
      ∃ b, b ∈ tBreakpoints ∧ (b : ℚ) ≤ df ∧
        (∀ d ∈ tBreakpoints, (d : ℚ) ≤ df → d ≤ b) ∧
        getTCritical df conf =
          (tTableLookup b conf).getD ((Z_SCORES conf).getD 1.96)) ∧
    (df < 1 → getTCritical df conf =
      (tTableLookup 1 conf).getD ((Z_SCORES conf).getD 1.96)) ∧
    (conf ≠ 90 → conf ≠ 95 → conf ≠ 99 →
      getTCritical df conf = (Z_SCORES conf).getD 1.96) := by
  refine ⟨?_, ?_, ?_, ?_⟩
  · intro h
    unfold getTCritical
    rw [if_pos h]
  · intro h1 h120
    unfold getTCritical
    rw [if_neg (not_le.mpr h120)]
    obtain ⟨hmem, -, hle, hmax⟩ := closestDfLoop_spec df tBreakpoints 1
      (by decide) (by exact_mod_cast h1) (by decide)
    refine ⟨closestDfLoop df 1 tBreakpoints, ?_, hle, hmax, rfl⟩
    rcases hmem with h | h
    · rw [h]; decide
    · exact h
  · intro h1
    unfold getTCritical
    rw [if_neg (by linarith : ¬ 120 ≤ df)]
    have hnot : ¬ ((1 : ℕ) : ℚ) ≤ df := by push_cast; linarith
    have hloop : closestDfLoop df 1 tBreakpoints = 1 := by
      rw [tBreakpoints, closestDfLoop, if_neg hnot]
    rw [hloop]
  · intro h90 h95 h99
    unfold getTCritical
    by_cases h : 120 ≤ df
    · rw [if_pos h]
    · rw [if_neg h, tTableLookup_absent _ _ h90 h95 h99]
      rfl

/-- Witness for the amended C7 theorem: at df = 30, confidence 95, the
largest breakpoint ≤ 30 is 30 itself and the lookup yields 2.042. -/
theorem getTCritical_spec_witness :
    (0 : ℚ) < 30 ∧ getTCritical 30 95 = 2.042 := by
  refine ⟨by norm_num, ?_⟩
  obtain ⟨-, hmid, -, -⟩ := getTCritical_spec 30 95 (by norm_num)
  obtain ⟨b, hbmem, hble, hmax, heq⟩ := hmid (by norm_num) (by norm_num)
  have h30b : (30 : ℕ) ≤ b := hmax 30 (by decide) (by norm_num)
  have hb30 : b ≤ 30 := by exact_mod_cast hble
  rw [le_antisymm hb30 h30b] at heq
  rw [heq]
  norm_num [tTableLookup, tRow]

/-! ## Theorems for the distribution claims -/

/-- C1 (code bug evidence): for 0 < df ≤ 100 the code's `tCDF` is an even
function of `t` — the value at `-t` equals the value at `t`, not the
mirrored complement `1 - tCDF(t, df)` described by the spec; the code has
no sign branch. -/
theorem tCDF_even_below_cutoff (t df : ℝ) (h0 : 0 < df) (h100 : df ≤ 100) :
    tCDF (-t) df = tCDF t df := by
  unfold tCDF
  rw [if_neg (not_lt.mpr h100), if_neg (not_lt.mpr h100), neg_mul_neg]

/-- Witness for C1 at t = 2, df = 10. -/
theorem tCDF_even_below_cutoff_witness :
    (0 : ℝ) < 10 ∧ (10 : ℝ) ≤ 100 ∧ tCDF (-2) 10 = tCDF 2 10 :=
  ⟨by norm_num, by norm_num, tCDF_even_below_cutoff 2 10 (by norm_num) (by norm_num)⟩

/-- C4 counterexample: in exact real arithmetic `normalCDF 0` is not 0.5
(the five polynomial coefficients sum to 0.999999999, not 1). -/
theorem normalCDF_zero_ne_half : normalCDF 0 ≠ 0.5 := by
  unfold normalCDF
  norm_num [Real.exp_zero]

/-- C4 amended: in exact real arithmetic `normalCDF 0 = 0.5 + 5e-10`
(the approximation error of the erf polynomial at 0), and the reflection
identity `normalCDF (-z) = 1 - normalCDF z` holds exactly for every
nonzero z. -/
theorem normalCDF_reflection (z : ℝ) (hz : z ≠ 0) :
    normalCDF 0 = 0.5000000005 ∧ normalCDF (-z) = 1 - normalCDF z := by
  constructor
  · unfold normalCDF
    norm_num [Real.exp_zero]
  · rcases hz.lt_or_lt with h | h
    · have h1 : ¬ -z < 0 := not_lt.mpr (by linarith)
      simp only [normalCDF]
      rw [abs_neg, if_neg h1, if_pos h]
      ring
    · have h2 : ¬ z < 0 := not_lt.mpr h.le
      have h3 : -z < 0 := by linarith
      simp only [normalCDF]
      rw [abs_neg, if_pos h3, if_neg h2]
      ring

/-- Witness for the amended C4 theorem at z = 1. -/
theorem normalCDF_reflection_witness :
    (1 : ℝ) ≠ 0 ∧ normalCDF (-1) = 1 - normalCDF 1 :=
  ⟨by norm_num, (normalCDF_reflection 1 (by norm_num)).2⟩

/-! ## Theorems for the descriptive-primitive claim -/

/-- C10: the descriptive primitives perform no validation and never
return a failure value; on the empty sequence `calculateMean` divides
0 by 0 and returns NaN, and on every single-element sequence
`calculateStdDev` in sample mode divides by the Bessel denominator
n - 1 = 0 and returns NaN. -/
theorem descriptive_primitives_nan :
    JS.calculateMean [] = JSNum.nan ∧
      ∀ x : ℝ, JS.calculateStdDev [JSNum.val x] true = JSNum.nan := by
  constructor
  · unfold JS.calculateMean
    simp [jsDiv]
  · intro x
    unfold JS.calculateStdDev JS.calculateMean
    simp only [List.foldl, List.map, List.length_cons, List.length_nil]
    norm_num [jsAdd, jsDiv, jsSub, jsPow2, jsMul, jsSqrt]

/-! ## Theorems for the regression claim -/

/-- A left fold accumulating `+ g v` is the initial value plus the sum of
the mapped list. -/
theorem foldl_add_eq_sum {α : Type} (g : α → ℝ) :
    ∀ (l : List α) (init : ℝ),
      l.foldl (fun s v => s + g v) init = init + (l.map g).sum := by
  intro l
  induction l with
  | nil => intro init; simp
  | cons a t ih =>
    intro init
    simp only [List.foldl_cons, List.map_cons, List.sum_cons]
    rw [ih]
    ring

/-- Expansion of the residual sum of squares: with intercept
`my - s·mx`, the squared residuals sum to
`Σ(yᵢ-my)² - 2s·Σ(xᵢ-mx)(yᵢ-my) + s²·Σ(xᵢ-mx)²`. -/
theorem residual_sq_sum (s mx my : ℝ) :
    ∀ (x y : List ℝ), x.length = y.length →
      ((List.zipWith (fun yi pi => yi - pi) y
          (x.map (fun xi => (my - s * mx) + s * xi))).map
        (fun r => r * r)).sum
      = (y.map (fun yi => (yi - my) ^ 2)).sum
        - 2 * s * (List.zipWith (fun xi yi => (xi - mx) * (yi - my)) x y).sum
        + s ^ 2 * (x.map (fun xi => (xi - mx) ^ 2)).sum := by
  intro x
  induction x with
  | nil =>
    intro y hy
    have : y = [] := List.length_eq_zero.mp hy.symm
    subst this
    simp
  | cons a t ih =>
    intro y hy
    cases y with
    | nil => simp at hy
    | cons b u =>
      have hlen : t.length = u.length := by
        simpa using hy
      simp only [List.map_cons, List.zipWith_cons_cons, List.sum_cons]
      rw [ih u hlen]
      ring

/-- C9: with equal-length inputs, n ≥ 3, nonconstant x (Sxx > 0) and
nonconstant y (SSyy > 0), the rSquared returned by `linearRegression`
satisfies 0 ≤ rSquared ≤ 1 in exact real arithmetic. -/
theorem linearRegression_rSquared_bounds (x y : List ℝ)
    (hlen : x.length = y.length) (hn : 3 ≤ x.length)
    (hxx : 0 < sumSqDev x (calculateMean x))
    (hyy : 0 < sumSqDev y (calculateMean y)) :
    0 ≤ (linearRegression x y).rSquared ∧
      (linearRegression x y).rSquared ≤ 1 := by
  set mx := calculateMean x with hmx
  set my := calculateMean y with hmy
  set A := sumSqDev x mx with hA
  set B := sumSqDev y my with hB
  set C := sumCrossDev x y mx my with hC
  set s := C / A with hs
  set R := (List.zipWith (fun yi pi => yi - pi) y
      (x.map (fun xi => (my - s * mx) + s * xi))).foldl
      (fun sum r => sum + r * r) 0 with hR
  have hproj : (linearRegression x y).rSquared = 1 - R / B := rfl
  have hAsum : A = (x.map (fun xi => (xi - mx) ^ 2)).sum := by
    rw [hA]
    unfold sumSqDev
    rw [foldl_add_eq_sum (fun v => (v - mx) ^ 2), zero_add]
  have hBsum : B = (y.map (fun yi => (yi - my) ^ 2)).sum := by
    rw [hB]
    unfold sumSqDev
    rw [foldl_add_eq_sum (fun v => (v - my) ^ 2), zero_add]
  have hCsum : C =
      (List.zipWith (fun xi yi => (xi - mx) * (yi - my)) x y).sum := by
    rw [hC]
    unfold sumCrossDev
    rw [foldl_add_eq_sum (fun v : ℝ => v), zero_add, List.map_id']
  have hRsum : R = B - 2 * s * C + s ^ 2 * A := by
    rw [hR, foldl_add_eq_sum (fun r => r * r), zero_add,
      residual_sq_sum s mx my x y hlen, ← hBsum, ← hCsum, ← hAsum]
  have hR0 : 0 ≤ R := by
    rw [hR, foldl_add_eq_sum (fun r => r * r), zero_add]
    apply List.sum_nonneg
    intro r hr
    rw [List.mem_map] at hr
    obtain ⟨a, -, rfl⟩ := hr
    exact mul_self_nonneg a
  have hRB : R ≤ B := by
    have h1 : B - 2 * (C / A) * C + (C / A) ^ 2 * A = B - C ^ 2 / A := by
      field_simp
      ring
    rw [hs] at hRsum
    rw [hRsum, h1]
    exact sub_le_self B (div_nonneg (sq_nonneg C) hxx.le)
  constructor
  · rw [hproj]
    have h2 : R / B ≤ 1 := (div_le_one hyy).mpr hRB
    linarith
  · rw [hproj]
    have h2 : 0 ≤ R / B := div_nonneg hR0 hyy.le
    linarith

/-- Witness for C9 at x = [1, 2, 3], y = [1, 2, 4]: the hypotheses hold
(Sxx = 2 > 0, SSyy = 14/3 > 0) and the rSquared bound follows. -/
theorem linearRegression_rSquared_bounds_witness :
    List.length [(1 : ℝ), 2, 3] = List.length [(1 : ℝ), 2, 4] ∧
      3 ≤ List.length [(1 : ℝ), 2, 3] ∧
      0 < sumSqDev [(1 : ℝ), 2, 3] (calculateMean [(1 : ℝ), 2, 3]) ∧
      0 < sumSqDev [(1 : ℝ), 2, 4] (calculateMean [(1 : ℝ), 2, 4]) ∧
      (0 ≤ (linearRegression [(1 : ℝ), 2, 3] [(1 : ℝ), 2, 4]).rSquared ∧
        (linearRegression [(1 : ℝ), 2, 3] [(1 : ℝ), 2, 4]).rSquared ≤ 1) := by
  have hx : 0 < sumSqDev [(1 : ℝ), 2, 3] (calculateMean [(1 : ℝ), 2, 3]) := by
    norm_num [sumSqDev, calculateMean]
  have hy : 0 < sumSqDev [(1 : ℝ), 2, 4] (calculateMean [(1 : ℝ), 2, 4]) := by
    norm_num [sumSqDev, calculateMean]
  exact ⟨by norm_num, by norm_num, hx, hy,
    linearRegression_rSquared_bounds _ _ (by norm_num) (by norm_num) hx hy⟩

/-! ## Theorems for the seasonal-decomposition claim -/

/-- Every defined ratio is strictly positive when the data is strictly
positive: the centered window sum is a nonempty sum of positive terms. -/
theorem ratioAt_pos (data : List ℝ) (P i : ℕ) (r : ℝ)
    (hP0 : 0 < P) (hpos : ∀ v ∈ data, 0 < v)
    (h : ratioAt data P i = some r) : 0 < r := by
  unfold ratioAt at h
  rw [Option.map_eq_some'] at h
  obtain ⟨ma, hma, hr⟩ := h
  unfold movingAverageAt at hma
  by_cases hg : i < halfPeriod P ∨ data.length - halfPeriod P ≤ i
  · rw [if_pos hg] at hma
    exact absurd hma (by simp)
  · rw [if_neg hg] at hma
    have hX := Option.some.inj hma
    push_neg at hg
    obtain ⟨hgi, hgn⟩ := hg
    have hiub : i < data.length := by omega
    have hterm : ∀ t ∈ (List.range (2 * halfPeriod P + 1)).map
        (fun k => windowTerm data P i (i - halfPeriod P + k)), 0 < t := by
      intro t ht
      rw [List.mem_map] at ht
      obtain ⟨k, hk, rfl⟩ := ht
      rw [List.mem_range] at hk
      have hj : i - halfPeriod P + k < data.length := by omega
      have hdj : 0 < data.getD (i - halfPeriod P + k) 0 := by
        rw [List.getD_eq_getElem data 0 hj]
        exact hpos _ (List.getElem_mem hj)
      unfold windowTerm
      split
      · linarith
      · exact hdj
    have hne : (List.range (2 * halfPeriod P + 1)).map
        (fun k => windowTerm data P i (i - halfPeriod P + k)) ≠ [] := by
      simp [List.range_eq_nil]
    have hsum := List.sum_pos _ hterm hne
    have hmapos : 0 < ma := by
      rw [← hX]
      exact div_pos hsum (by exact_mod_cast hP0)
    have hdi : 0 < data.getD i 0 := by
      rw [List.getD_eq_getElem data 0 hiub]
      exact hpos _ (List.getElem_mem hiub)
    rw [← hr]
    exact div_pos hdi hmapos

/-- Every ratio collected into a season slot is positive. -/
theorem ratiosAtSeason_pos (data : List ℝ) (P s : ℕ)
    (hP0 : 0 < P) (hpos : ∀ v ∈ data, 0 < v) :
    ∀ r ∈ ratiosAtSeason data P s, 0 < r := by
  intro r hr
  unfold ratiosAtSeason at hr
  rw [List.mem_filterMap] at hr
  obtain ⟨i, -, hi⟩ := hr
  by_cases h : i % P = s
  · rw [if_pos h] at hi
    exact ratioAt_pos data P i r hP0 hpos hi
  · rw [if_neg h] at hi
    exact absurd hi (by simp)

/-- Each raw seasonal index is positive: either a mean of positive
ratios, or the default 1 when the slot is empty. -/
theorem rawIndexAt_pos (data : List ℝ) (P s : ℕ)
    (hP0 : 0 < P) (hpos : ∀ v ∈ data, 0 < v) :
    0 < rawIndexAt data P s := by
  unfold rawIndexAt
  split
  · next h =>
    apply div_pos
    · exact List.sum_pos _ (ratiosAtSeason_pos data P s hP0 hpos)
        (List.length_pos.mp h)
    · exact_mod_cast h
  · norm_num

/-- Dividing every entry of a list by a constant divides the sum. -/
theorem list_sum_map_div (l : List ℝ) (c : ℝ) :
    (l.map (fun v => v / c)).sum = l.sum / c := by
  induction l with
  | nil => simp
  | cons a t ih =>
    rw [List.map_cons, List.sum_cons, List.sum_cons, ih]
    ring

/-- C3: for P ≥ 2 and at least 2P strictly positive observations,
`calculateSeasonalIndices` returns exactly P seasonal indices whose
arithmetic mean is exactly 1 in exact real arithmetic. -/
theorem seasonalIndices_average_one (data : List ℝ) (P : ℕ)
    (hP : 2 ≤ P) (hlen : 2 * P ≤ data.length)
    (hpos : ∀ v ∈ data, 0 < v) :
    (calculateSeasonalIndices data P).indices.length = P ∧
      (calculateSeasonalIndices data P).indices.sum / (P : ℝ) = 1 := by
  have hP0 : 0 < P := by omega
  have hPr : (0 : ℝ) < (P : ℝ) := by exact_mod_cast hP0
  refine ⟨by simp [calculateSeasonalIndices, seasonalIndices, rawIndices], ?_⟩
  have hraw : ∀ v ∈ rawIndices data P, 0 < v := by
    intro v hv
    rw [rawIndices, List.mem_map] at hv
    obtain ⟨s, -, rfl⟩ := hv
    exact rawIndexAt_pos data P s hP0 hpos
  have hne : rawIndices data P ≠ [] := by
    rw [rawIndices]
    simp [List.range_eq_nil]
    omega
  have hsum : 0 < (rawIndices data P).sum := List.sum_pos _ hraw hne
  show (seasonalIndices data P).sum / (P : ℝ) = 1
  rw [seasonalIndices, list_sum_map_div]
  unfold avgIndex
  have hS : (rawIndices data P).sum ≠ 0 := hsum.ne'
  have hPn : (P : ℝ) ≠ 0 := hPr.ne'
  field_simp

/-- Witness for C3: quarterly-style data [1, 2, 3, 4] with P = 2 yields
2 indices averaging exactly to 1. -/
theorem seasonalIndices_average_one_witness :
    2 ≤ 2 ∧ 2 * 2 ≤ List.length [(1 : ℝ), 2, 3, 4] ∧
      (∀ v ∈ [(1 : ℝ), 2, 3, 4], 0 < v) ∧
      (calculateSeasonalIndices [(1 : ℝ), 2, 3, 4] 2).indices.length = 2 ∧
      (calculateSeasonalIndices [(1 : ℝ), 2, 3, 4] 2).indices.sum / (2 : ℝ) = 1 := by
  have hpos : ∀ v ∈ [(1 : ℝ), 2, 3, 4], 0 < v := by
    intro v hv
    simp only [List.mem_cons, List.not_mem_nil, or_false] at hv
    rcases hv with rfl | rfl | rfl | rfl <;> norm_num
  have h := seasonalIndices_average_one [(1 : ℝ), 2, 3, 4] 2
    (le_refl 2) (by norm_num) hpos
  refine ⟨le_refl 2, by norm_num, hpos, h.1, ?_⟩
  exact_mod_cast h.2
